import Mathlib

/-!
Verification development for a restaurant point-of-sale application:
order settlement state machine, customer loan ledger, and the
time-bucketed report aggregator with CSV/print export.

The definitions below are a shallow embedding of the application's
source.  JS numbers used for money are modelled as `Rat`; quantities
and counters as `Nat`; JS strings as `String`; JS records
(insertion-ordered maps) as association lists.  The realtime store is
modelled at the business level: a path `orders/<id>` denotes the order
whose `id` field matches, and a `update(path, fields)` call is a
field-merge on the matching element.  A store write that fails
(rejected promise) leaves the store unchanged; success flags of the
independent writes are explicit `Bool` parameters.
-/

/-- Order settlement status.  The snapshot reader normalises an absent
status to `pending`, so the in-memory status is always one of the
three enumerated values. -/
inductive OrderStatus
  | pending
  | paid
  | loan
deriving DecidableEq

/-- One line item of an order: an item reference and a quantity. -/
structure OrderItem where
  itemId : String
  qty : Nat
deriving DecidableEq

/-- An order as held in the client's working set. -/
structure Order where
  id : String
  waiterId : String
  time : String
  items : List OrderItem
  status : OrderStatus
  collector : String
deriving DecidableEq

/-- A catalog item.  `price` is read live when totals are computed. -/
structure Item where
  id : String
  name : String
  price : Rat
  stock : Nat
deriving DecidableEq

/-- A staff member. -/
structure User where
  id : String
  name : String
  role : String
  phone : String
  pin : String
deriving DecidableEq

/-- A loan ledger entry: the debt recorded when an order is settled as
a loan.  `amount` is frozen at creation time. -/
structure LoanEntry where
  id : String
  orderId : String
  amount : Rat
  date : String
  servedBy : String
deriving DecidableEq

/-- A loan customer together with the (key, entry) pairs stored under
its `loans` record, in insertion order. -/
structure LoanCustomer where
  id : String
  name : String
  phone : String
  loans : List (String × LoanEntry)
deriving DecidableEq

/-- The part of the client state the settlement claims are about. -/
structure AppState where
  orders : List Order
  loanCustomers : List LoanCustomer
deriving DecidableEq

/-- `itemsById[itemId]`: lookup of an item by id. -/
def itemsById (items : List Item) (itemId : String) : Option Item :=
  items.find? (fun it => it.id == itemId)

/-- `usersById[userId]`: lookup of a staff member by id. -/
def usersById (users : List User) (userId : String) : Option User :=
  users.find? (fun u => u.id == userId)

/-- `orderTotal`: sum over the order's line items of
`qty * (itemsById[entry.itemId]?.price ?? 0)`, exactly as the source
reduces it. -/
def orderTotal (items : List Item) (o : Order) : Rat :=
  o.items.foldl
    (fun sum entry =>
      sum + (entry.qty : Rat) * (((itemsById items entry.itemId).map Item.price).getD 0))
    0

/-- The collector recorded by `updateOrderStatus`: the signed-in
user's name for `paid`/`loan`, the empty string otherwise. -/
def collectorFor (currentUser : Option User) (status : OrderStatus) : String :=
  if status = .paid ∨ status = .loan then (currentUser.map User.name).getD "Unknown" else ""

/-- `updateOrderStatus(id, status)`: merge `{status, collector}` into
the order at path `orders/<id>`. -/
def updateOrderStatus (currentUser : Option User) (orders : List Order)
    (orderId : String) (status : OrderStatus) : List Order :=
  orders.map (fun o =>
    if o.id == orderId then
      { o with status := status, collector := collectorFor currentUser status }
    else o)

/-- `handleStatusChange(order, status)`: for `loan` it only opens the
customer-selection modal (no store write); otherwise it calls
`updateOrderStatus`. -/
def handleStatusChange (currentUser : Option User) (st : AppState)
    (o : Order) (status : OrderStatus) : AppState :=
  match status with
  | .loan => st
  | s => { st with orders := updateOrderStatus currentUser st.orders o.id s }

/-- The loan entry built by `addLoanEntry`/`addLoanEntryForOrder`:
amount is the order's live computed total, date the order's `time`,
servedBy the waiter's name with the waiter id as fallback. -/
def mkLoanEntry (users : List User) (items : List Item) (entryKey : String)
    (o : Order) : LoanEntry :=
  { id := entryKey
    orderId := o.id
    amount := orderTotal items o
    date := o.time
    servedBy := ((usersById users o.waiterId).map User.name).getD o.waiterId }

/-- `addLoanEntryForOrder(order, customer)`: skip if the TARGET
customer's own loans already contain an entry with this `orderId`
(`Object.values(customer.loans ?? {}).find(l => l.orderId === order.id)`),
otherwise push a fresh entry under the target customer's `loans`
record. -/
def addLoanEntryForOrder (users : List User) (items : List Item) (entryKey : String)
    (ledger : List LoanCustomer) (o : Order) (c : LoanCustomer) : List LoanCustomer :=
  if ((c.loans.map Prod.snd).find? (fun l => l.orderId == o.id)).isSome then ledger
  else
    ledger.map (fun c2 =>
      if c2.id == c.id then
        { c2 with loans := c2.loans ++ [(entryKey, mkLoanEntry users items entryKey o)] }
      else c2)

/-- `confirmLoanStatus()`: validates the modal selection, then fires
TWO INDEPENDENT store writes: `updateOrderStatus(order.id, 'loan')`
and `addLoanEntryForOrder(order, customer)`.  Neither write is
conditioned on the other's outcome; `statusWriteOk` and
`ledgerWriteOk` model each write's independent success or failure. -/
def confirmLoanStatus (users : List User) (items : List Item)
    (currentUser : Option User) (entryKey : String)
    (statusWriteOk ledgerWriteOk : Bool) (st : AppState)
    (orderId customerId : String) : AppState :=
  if orderId = "" ∨ customerId = "" then st
  else
    match st.orders.find? (fun o => o.id == orderId),
          st.loanCustomers.find? (fun c => c.id == customerId) with
    | some o, some c =>
        { orders :=
            if statusWriteOk then updateOrderStatus currentUser st.orders o.id .loan
            else st.orders
          loanCustomers :=
            if ledgerWriteOk then addLoanEntryForOrder users items entryKey st.loanCustomers o c
            else st.loanCustomers }
    | _, _ => st

/-- Result of the manual `addLoanEntry` flow: either a banner error
message or the saved ledger. -/
inductive AddLoanEntryResult
  | selectionError (message : String)
  | saved (ledger : List LoanCustomer)
deriving DecidableEq

/-- `addLoanEntry()`: the manual loan-entry form.  It validates the
selection and then unconditionally writes a fresh entry under the
chosen customer — it performs NO duplicate-orderId check at all. -/
def addLoanEntry (users : List User) (items : List Item) (entryKey : String)
    (orders : List Order) (ledger : List LoanCustomer)
    (customerId orderId : String) : AddLoanEntryResult :=
  if customerId = "" ∨ orderId = "" then .selectionError "Select customer and loan order."
  else
    match ledger.find? (fun c => c.id == customerId),
          orders.find? (fun o => o.id == orderId) with
    | some c, some o =>
        .saved (ledger.map (fun c2 =>
          if c2.id == c.id then
            { c2 with loans := c2.loans ++ [(entryKey, mkLoanEntry users items entryKey o)] }
          else c2))
    | _, _ => .selectionError "Invalid selection."

/-- All loan entries across the whole ledger, in ledger order. -/
def allLoanEntries (ledger : List LoanCustomer) : List LoanEntry :=
  (ledger.map (fun c => c.loans.map Prod.snd)).flatten

/-! ### Concrete fixtures used to evaluate the operations -/

/-- A waiter on file. -/
def demoWaiter : User :=
  { id := "w1", name := "Bob", role := "waiter", phone := "+252", pin := "1111" }

/-- The collector performing the settlements. -/
def demoActor : User :=
  { id := "u1", name := "Alice", role := "collector", phone := "+252", pin := "2222" }

/-- Staff list. -/
def demoUsers : List User := [demoWaiter, demoActor]

/-- Item catalog. -/
def demoItems : List Item :=
  [{ id := "A", name := "Tea", price := 5, stock := 10 },
   { id := "B", name := "Cake", price := 10, stock := 4 }]

/-- A pending order served by `w1` with two units of item `A`. -/
def demoOrder : Order :=
  { id := "order001", waiterId := "w1", time := "2024-01-05T10:00:00.000Z",
    items := [{ itemId := "A", qty := 2 }], status := .pending, collector := "" }

/-- A second pending order with a different id. -/
def demoOrder2 : Order :=
  { id := "order002", waiterId := "w1", time := "2024-01-06T10:00:00.000Z",
    items := [{ itemId := "B", qty := 1 }], status := .pending, collector := "" }

/-- Loan customer X, initially with no loans. -/
def demoCustomerX : LoanCustomer :=
  { id := "custX", name := "Xavier", phone := "+252", loans := [] }

/-- Loan customer Y, initially with no loans. -/
def demoCustomerY : LoanCustomer :=
  { id := "custY", name := "Yusuf", phone := "+252", loans := [] }

/-- State with one pending order and the two loan customers. -/
def demoState : AppState :=
  { orders := [demoOrder], loanCustomers := [demoCustomerX, demoCustomerY] }

/-- State with two pending orders and one loan customer. -/
def demoStateTwo : AppState :=
  { orders := [demoOrder, demoOrder2], loanCustomers := [demoCustomerX] }

/-- Ledger in which customer X already holds the loan for `order001`. -/
def demoLedgerWithX : List LoanCustomer :=
  [{ demoCustomerX with loans := [("k1", mkLoanEntry demoUsers demoItems "k1" demoOrder)] },
   demoCustomerY]

/-! ### Helper lemmas -/

/-- A left fold accumulating `+ f x` equals the initial value plus the
sum of the mapped list. -/
theorem foldl_add_map_sum {α : Type} (f : α → Rat) (l : List α) (a : Rat) :
    l.foldl (fun s x => s + f x) a = a + (l.map f).sum := by
  induction l generalizing a with
  | nil => simp
  | cons x xs ih => simp [ih, add_assoc]

/-! ### Claims C1 - C5 -/

/-- C1: the claim reads "the pending → loan settlement's two writes
(set the order's status/collector, and insert the LoanEntry under the
chosen customer) form one logical operation: if either write fails the
other does not take effect".  The code fires the two writes as
independent, unconditioned store calls; evaluated at a state where the
status write succeeds and the ledger write fails, the order ends with
`status = loan` while the ledger is unchanged — the two writes are NOT
one logical operation. -/
theorem confirmLoan_partial_failure_not_atomic :
    ((confirmLoanStatus demoUsers demoItems (some demoActor) "k1" true false demoState
        "order001" "custX").orders.map Order.status = [OrderStatus.loan]) ∧
    (confirmLoanStatus demoUsers demoItems (some demoActor) "k1" true false demoState
        "order001" "custX").loanCustomers = demoState.loanCustomers :=
  ⟨rfl, rfl⟩

/-- C2: the claim reads "the pending → loan transition detects an
existing LoanEntry with that order's id across the loans of ALL
customers … so that after any sequence of transitions no two loan
entries anywhere in the ledger share an orderId".  The code checks
only the TARGET customer's loans: settling `order001` to customer X
and then settling the same order to customer Y produces two distinct
ledger entries that share the orderId `order001`, violating I1. -/
theorem confirmLoan_duplicate_entry_across_customers :
    ((allLoanEntries
        (confirmLoanStatus demoUsers demoItems (some demoActor) "k2" true true
          (confirmLoanStatus demoUsers demoItems (some demoActor) "k1" true true demoState
            "order001" "custX")
          "order001" "custY").loanCustomers).map LoanEntry.orderId
      = ["order001", "order001"]) ∧
    (allLoanEntries
        (confirmLoanStatus demoUsers demoItems (some demoActor) "k2" true true
          (confirmLoanStatus demoUsers demoItems (some demoActor) "k1" true true demoState
            "order001" "custX")
          "order001" "custY").loanCustomers).Nodup := by
  refine ⟨rfl, ?_⟩
  decide

/-- C3: the claim reads "adding a loan entry for an order already
loaned to customer X under any customer Y fails with the distinct
DuplicateOrderLoan error, appends no new entry, and leaves X's entry
unchanged".  The code has no DuplicateOrderLoan error at all: with X
already holding the loan for `order001`, `addLoanEntry` for customer Y
succeeds and appends a second entry for the same order. -/
theorem addLoanEntry_duplicate_saved_without_error :
    (addLoanEntry demoUsers demoItems "k2" [demoOrder] demoLedgerWithX "custY" "order001"
      = .saved
          [{ demoCustomerX with loans := [("k1", mkLoanEntry demoUsers demoItems "k1" demoOrder)] },
           { demoCustomerY with loans := [("k2", mkLoanEntry demoUsers demoItems "k2" demoOrder)] }]) ∧
    ((allLoanEntries
        [{ demoCustomerX with loans := [("k1", mkLoanEntry demoUsers demoItems "k1" demoOrder)] },
         { demoCustomerY with loans := [("k2", mkLoanEntry demoUsers demoItems "k2" demoOrder)] }]).map
        LoanEntry.orderId = ["order001", "order001"]) :=
  ⟨rfl, rfl⟩

/-- C4: settling pending → loan with a chosen customer creates exactly
one LoanEntry under that customer — the target customer's loans gain
exactly one appended entry, every other customer is untouched — whose
amount is the order's live computed total (sum over line items of
qty × current price, 0 for a missing item), whose date is the order's
`time`, and whose servedBy is the name of the order's serving
waiter. -/
theorem confirmLoan_creates_single_entry
    (users : List User) (items : List Item) (actor : User) (entryKey : String)
    (st : AppState) (orderId customerId : String) (o : Order) (c : LoanCustomer) (w : User)
    (hoid : orderId ≠ "") (hcid : customerId ≠ "")
    (ho : st.orders.find? (fun o2 => o2.id == orderId) = some o)
    (hc : st.loanCustomers.find? (fun c2 => c2.id == customerId) = some c)
    (hnew : (c.loans.map Prod.snd).find? (fun l => l.orderId == o.id) = none)
    (hw : usersById users o.waiterId = some w) :
    ((confirmLoanStatus users items (some actor) entryKey true true st orderId customerId).loanCustomers
      = st.loanCustomers.map (fun c2 =>
          if c2.id == c.id then
            { c2 with loans := c2.loans ++
                [(entryKey,
                  { id := entryKey, orderId := o.id, amount := orderTotal items o,
                    date := o.time, servedBy := w.name })] }
          else c2)) ∧
    orderTotal items o
      = (o.items.map (fun entry =>
          (entry.qty : Rat) * (((itemsById items entry.itemId).map Item.price).getD 0))).sum := by
  constructor
  · simp only [confirmLoanStatus, hoid, hcid, or_self, if_neg, ho, hc]
    simp [addLoanEntryForOrder, hnew, mkLoanEntry, hw]
  · simp [orderTotal, foldl_add_map_sum]

/-- Witness for C4 at the concrete fixture state. -/
theorem confirmLoan_creates_single_entry_witness :
    ((confirmLoanStatus demoUsers demoItems (some demoActor) "k1" true true demoState
        "order001" "custX").loanCustomers
      = demoState.loanCustomers.map (fun c2 =>
          if c2.id == demoCustomerX.id then
            { c2 with loans := c2.loans ++
                [("k1",
                  { id := "k1", orderId := demoOrder.id, amount := orderTotal demoItems demoOrder,
                    date := demoOrder.time, servedBy := demoWaiter.name })] }
          else c2)) ∧
    orderTotal demoItems demoOrder
      = (demoOrder.items.map (fun entry =>
          (entry.qty : Rat) * (((itemsById demoItems entry.itemId).map Item.price).getD 0))).sum :=
  confirmLoan_creates_single_entry demoUsers demoItems demoActor "k1" demoState
    "order001" "custX" demoOrder demoCustomerX demoWaiter
    (by decide) (by decide) (by decide) (by decide) (by decide) (by decide)

/-- C5: the pending → paid transition sets exactly `status = paid` and
`collector = actor.name` on the order with the given id, and changes
nothing else: the matching order keeps its id, waiterId, time and
items (record update touches only status/collector), every other
order is unchanged, and the loan ledger is untouched. -/
theorem handleStatusChange_paid_frame
    (u : User) (st : AppState) (o : Order) :
    ((handleStatusChange (some u) st o .paid).loanCustomers = st.loanCustomers) ∧
    ((handleStatusChange (some u) st o .paid).orders.length = st.orders.length) ∧
    ∀ i (h : i < st.orders.length)
      (h2 : i < (handleStatusChange (some u) st o .paid).orders.length),
      ((st.orders[i].id = o.id →
        (handleStatusChange (some u) st o .paid).orders[i]
          = { st.orders[i] with status := .paid, collector := u.name })) ∧
      ((st.orders[i].id ≠ o.id →
        (handleStatusChange (some u) st o .paid).orders[i] = st.orders[i])) := by
  refine ⟨rfl, by simp [handleStatusChange, updateOrderStatus], ?_⟩
  intro i h h2
  have key : (handleStatusChange (some u) st o .paid).orders[i]
      = (if st.orders[i].id == o.id then
          { st.orders[i] with status := .paid, collector := u.name }
        else st.orders[i]) := by
    simp [handleStatusChange, updateOrderStatus, collectorFor, List.getElem_map]
  constructor
  · intro hid
    simp [key, hid]
  · intro hid
    simp [key, hid]

/-- Witness for C5: at the two-order fixture, `order001` gains exactly
status/collector and `order002` is untouched; the ledger is unchanged. -/
theorem handleStatusChange_paid_frame_witness :
    ((handleStatusChange (some demoActor) demoStateTwo demoOrder .paid).loanCustomers
      = demoStateTwo.loanCustomers) ∧
    ((handleStatusChange (some demoActor) demoStateTwo demoOrder .paid).orders.get ⟨0, by decide⟩
      = { demoOrder with status := .paid, collector := demoActor.name }) ∧
    ((handleStatusChange (some demoActor) demoStateTwo demoOrder .paid).orders.get ⟨1, by decide⟩
      = demoOrder2) := by
  have h := handleStatusChange_paid_frame demoActor demoStateTwo demoOrder
  exact ⟨h.1, (h.2.2 0 (by decide) (by decide)).1 (by decide),
    (h.2.2 1 (by decide) (by decide)).2 (by decide)⟩

/-! ### Report aggregator: filtering (C6) -/

/-- The report status filter buttons. -/
inductive ReportStatusFilter
  | all
  | paid
  | loan
deriving DecidableEq

/-- `end.setHours(23, 59, 59, 999)` on an instant, for a fixed-offset
local timezone `tz` (milliseconds east of UTC; DST is not modelled):
the instant whose local wall clock reads 23:59:59.999 on the same
local day as `e`. -/
def setHoursEndOfDay (tz : Int) (e : Int) : Int :=
  (e + tz) - (e + tz) % 86400000 + 86399999 - tz

/-- The order filter of `reportRows`: an order passes iff its `time`
parses (`!Number.isNaN`), is not before `start`, not after the
end-of-day-extended `end`, and survives the status filter.  `parseTime`
models `new Date(string).getTime()` (`none` for an invalid date). -/
def reportIncludes (parseTime : String → Option Int) (tz : Int)
    (reportStart reportEnd : Option Int) (reportStatus : ReportStatusFilter)
    (o : Order) : Bool :=
  match parseTime o.time with
  | none => false
  | some t =>
    if reportStart.elim false (fun s => decide (t < s)) then false
    else if reportEnd.elim false (fun e => decide (setHoursEndOfDay tz e < t)) then false
    else if reportStatus = .paid ∧ o.status ≠ .paid then false
    else if reportStatus = .loan ∧ o.status ≠ .loan then false
    else true

/-- `orders.filter(...)` of `reportRows`. -/
def reportFilteredOrders (parseTime : String → Option Int) (tz : Int)
    (reportStart reportEnd : Option Int) (reportStatus : ReportStatusFilter)
    (orders : List Order) : List Order :=
  orders.filter (reportIncludes parseTime tz reportStart reportEnd reportStatus)

/-- The specification's inclusion predicate, written from the spec's
words: the time parses to a valid instant, the instant lies within
[start, end] inclusive with the end bound extended to 23:59:59.999
local end-of-day, and the order matches the status filter. -/
def reportIncludesSpec (parseTime : String → Option Int) (tz : Int)
    (reportStart reportEnd : Option Int) (reportStatus : ReportStatusFilter)
    (o : Order) : Prop :=
  ∃ t, parseTime o.time = some t ∧
    (∀ s, reportStart = some s → s ≤ t) ∧
    (∀ e, reportEnd = some e → t ≤ setHoursEndOfDay tz e) ∧
    (match reportStatus with
     | .all => True
     | .paid => o.status = .paid
     | .loan => o.status = .loan)

/-- C6: the report aggregator includes an order iff its time parses to
a valid instant within [start, end-of-day(end)] inclusive and the
order matches the status filter (`all` admits every status, `paid` and
`loan` admit only that status); in particular a pending order is
excluded under any specific status filter, and the filtered collection
keeps exactly the orders passing the test. -/
theorem reportIncludes_iff_spec (parseTime : String → Option Int) (tz : Int)
    (reportStart reportEnd : Option Int) (reportStatus : ReportStatusFilter)
    (o : Order) :
    (reportIncludes parseTime tz reportStart reportEnd reportStatus o = true ↔
      reportIncludesSpec parseTime tz reportStart reportEnd reportStatus o) ∧
    (reportStatus ≠ .all → o.status = .pending →
      reportIncludes parseTime tz reportStart reportEnd reportStatus o = false) ∧
    (∀ orders : List Order,
      o ∈ reportFilteredOrders parseTime tz reportStart reportEnd reportStatus orders ↔
        o ∈ orders ∧ reportIncludes parseTime tz reportStart reportEnd reportStatus o = true) := by
  refine ⟨?_, ?_, ?_⟩
  · unfold reportIncludes reportIncludesSpec
    cases hp : parseTime o.time with
    | none => simp
    | some t =>
      rcases reportStart with _ | s <;> rcases reportEnd with _ | e <;>
        cases reportStatus <;> cases ho : o.status <;>
        simp [ho]
  · intro hrs hst
    unfold reportIncludes
    cases hp : parseTime o.time with
    | none => rfl
    | some t =>
      cases reportStatus with
      | all => exact absurd rfl hrs
      | paid => simp [hst]
      | loan => simp [hst]
  · intro orders
    simp [reportFilteredOrders, List.mem_filter]

/-- Witness for C6 at concrete values: with start = end = 0, timezone
UTC, filter `paid`, a pending order timestamped inside the day is
excluded, and the spec predicate agrees on a paid order. -/
theorem reportIncludes_iff_spec_witness :
    (reportIncludes (fun s => if s = "t0" then some 50000 else none) 0
      (some 0) (some 0) .paid
      { id := "order001", waiterId := "w1", time := "t0",
        items := [], status := .pending, collector := "" } = false) ∧
    (reportIncludes (fun s => if s = "t0" then some 50000 else none) 0
      (some 0) (some 0) .all
      { id := "order001", waiterId := "w1", time := "t0",
        items := [], status := .pending, collector := "" } = true) := by
  refine ⟨(reportIncludes_iff_spec (fun s => if s = "t0" then some 50000 else none) 0
      (some 0) (some 0) .paid
      { id := "order001", waiterId := "w1", time := "t0",
        items := [], status := .pending, collector := "" }).2.1 (by decide) rfl, ?_⟩
  exact (reportIncludes_iff_spec (fun s => if s = "t0" then some 50000 else none) 0
      (some 0) (some 0) .all
      { id := "order001", waiterId := "w1", time := "t0",
        items := [], status := .pending, collector := "" }).1.mpr
    ⟨50000, rfl, by intro s hs; cases hs; decide, by intro e he; cases he; decide, trivial⟩

/-! ### Export renderer: grand totals (C8) -/

/-- The six counters of a report bucket (`ReportStats` in the source). -/
structure ReportStats where
  ordersCount : Nat
  itemsCount : Nat
  sales : Rat
  paid : Nat
  loan : Nat
  pending : Nat
deriving DecidableEq

/-- A report row: a bucket label plus its counters. -/
structure ReportRow where
  label : String
  ordersCount : Nat
  itemsCount : Nat
  sales : Rat
  paid : Nat
  loan : Nat
  pending : Nat
deriving DecidableEq

/-- The grand total `exportReportCSV` computes: a single left reduce
over `reportRows` accumulating all six components. -/
def csvGrandTotal (rows : List ReportRow) : ReportStats :=
  rows.foldl
    (fun acc r =>
      { ordersCount := acc.ordersCount + r.ordersCount
        itemsCount := acc.itemsCount + r.itemsCount
        sales := acc.sales + r.sales
        paid := acc.paid + r.paid
        loan := acc.loan + r.loan
        pending := acc.pending + r.pending })
    { ordersCount := 0, itemsCount := 0, sales := 0, paid := 0, loan := 0, pending := 0 }

/-- The grand total `printReport` computes for the printable document:
the same left reduce over the same `reportRows`. -/
def printGrandTotal (rows : List ReportRow) : ReportStats :=
  rows.foldl
    (fun acc r =>
      { ordersCount := acc.ordersCount + r.ordersCount
        itemsCount := acc.itemsCount + r.itemsCount
        sales := acc.sales + r.sales
        paid := acc.paid + r.paid
        loan := acc.loan + r.loan
        pending := acc.pending + r.pending })
    { ordersCount := 0, itemsCount := 0, sales := 0, paid := 0, loan := 0, pending := 0 }

/-- The on-screen total row's Orders cell: `reduce((s, r) => s + r.ordersCount, 0)`. -/
def screenOrdersTotal (rows : List ReportRow) : Nat :=
  rows.foldl (fun s r => s + r.ordersCount) 0

/-- The on-screen total row's Items cell. -/
def screenItemsTotal (rows : List ReportRow) : Nat :=
  rows.foldl (fun s r => s + r.itemsCount) 0

/-- The on-screen total row's Sales cell. -/
def screenSalesTotal (rows : List ReportRow) : Rat :=
  rows.foldl (fun s r => s + r.sales) 0

/-- The on-screen total row's Paid cell. -/
def screenPaidTotal (rows : List ReportRow) : Nat :=
  rows.foldl (fun s r => s + r.paid) 0

/-- The on-screen total row's Loan cell. -/
def screenLoanTotal (rows : List ReportRow) : Nat :=
  rows.foldl (fun s r => s + r.loan) 0

/-- The on-screen total row's Pending cell. -/
def screenPendingTotal (rows : List ReportRow) : Nat :=
  rows.foldl (fun s r => s + r.pending) 0

/-- A left fold accumulating `+ f x` over a Nat-valued map. -/
theorem foldl_add_map_sum_nat {α : Type} (f : α → Nat) (l : List α) (a : Nat) :
    l.foldl (fun s x => s + f x) a = a + (l.map f).sum := by
  induction l generalizing a with
  | nil => simp
  | cons x xs ih => simp [ih, add_assoc]

/-- The structure-valued grand-total fold, component by component. -/
theorem grandTotal_fold_components (rows : List ReportRow) (acc : ReportStats) :
    rows.foldl
      (fun acc r =>
        { ordersCount := acc.ordersCount + r.ordersCount
          itemsCount := acc.itemsCount + r.itemsCount
          sales := acc.sales + r.sales
          paid := acc.paid + r.paid
          loan := acc.loan + r.loan
          pending := acc.pending + r.pending })
      acc
      = { ordersCount := acc.ordersCount + (rows.map ReportRow.ordersCount).sum
          itemsCount := acc.itemsCount + (rows.map ReportRow.itemsCount).sum
          sales := acc.sales + (rows.map ReportRow.sales).sum
          paid := acc.paid + (rows.map ReportRow.paid).sum
          loan := acc.loan + (rows.map ReportRow.loan).sum
          pending := acc.pending + (rows.map ReportRow.pending).sum } := by
  induction rows generalizing acc with
  | nil => simp
  | cons r rs ih => simp [ih, add_assoc]

/-- C8: the grand total computed by the CSV export equals the one
computed by the printable document, equals the component-wise sums the
on-screen total row computes, and equals the component-wise sum over
the rows — all computed from the same `ReportRow[]`, so the exported
totals match the on-screen totals exactly. -/
theorem exportTotals_agree (rows : List ReportRow) :
    csvGrandTotal rows = printGrandTotal rows ∧
    csvGrandTotal rows
      = { ordersCount := screenOrdersTotal rows
          itemsCount := screenItemsTotal rows
          sales := screenSalesTotal rows
          paid := screenPaidTotal rows
          loan := screenLoanTotal rows
          pending := screenPendingTotal rows } ∧
    csvGrandTotal rows
      = { ordersCount := (rows.map ReportRow.ordersCount).sum
          itemsCount := (rows.map ReportRow.itemsCount).sum
          sales := (rows.map ReportRow.sales).sum
          paid := (rows.map ReportRow.paid).sum
          loan := (rows.map ReportRow.loan).sum
          pending := (rows.map ReportRow.pending).sum } := by
  refine ⟨rfl, ?_, ?_⟩ <;>
    simp [csvGrandTotal, grandTotal_fold_components, screenOrdersTotal, screenItemsTotal,
      screenSalesTotal, screenPaidTotal, screenLoanTotal, screenPendingTotal,
      foldl_add_map_sum_nat, foldl_add_map_sum]

/-! ### Order id allocation (C10) -/

/-- The decimal digit character for `n < 10`. -/
def digitChar (n : Nat) : Char := Char.ofNat (48 + n)

/-- Model of JS `String(n)` for a natural number: its decimal digits,
most significant first, no padding. -/
def natToChars (n : Nat) : List Char :=
  if h : n < 10 then [digitChar n]
  else natToChars (n / 10) ++ [digitChar (n % 10)]
termination_by n
decreasing_by exact Nat.div_lt_self (by omega) (by omega)

/-- JS `String(n)` as a `String`. -/
def natToString (n : Nat) : String := ⟨natToChars n⟩

/-- JS `s.padStart(w, '0')`: prepend zeros up to width `w` (never
truncates). -/
def padStartZeros (w : Nat) (s : String) : String :=
  ⟨List.replicate (w - s.data.length) '0' ++ s.data⟩

/-- `\d`: an ASCII decimal digit. -/
def isDigitCode (c : Char) : Bool := decide (48 ≤ c.toNat ∧ c.toNat ≤ 57)

/-- Numeric value of a digit string (model of `Number(...)` on the
digits captured by the regex). -/
def digitsToNat (cs : List Char) : Nat :=
  cs.foldl (fun acc c => 10 * acc + (c.toNat - 48)) 0

/-- `/^order(\d+)$/.exec(id)`: `some` of the numeric suffix when the
id is the literal prefix `order` followed by one or more digits. -/
def parseOrderSuffix (id : String) : Option Nat :=
  let cs := id.data
  if cs.take 5 = "order".data ∧ cs.drop 5 ≠ [] ∧ (cs.drop 5).all isDigitCode then
    some (digitsToNat (cs.drop 5))
  else none

/-- `nextOrderId()`: reduce over all current orders taking the maximum
matching suffix (0 when none matches), then render `order` plus the
successor padded to three digits. -/
def nextOrderId (orders : List Order) : String :=
  "order" ++ padStartZeros 3 (natToString
    (orders.foldl
      (fun mx o =>
        match parseOrderSuffix o.id with
        | none => mx
        | some n => Nat.max mx n)
      0 + 1))

/-- `handleCreateOrder()`: the order payload written to the store
(spelled at the business level after snapshot normalisation). -/
def handleCreateOrder (orders : List Order) (draftWaiter : String)
    (selected : List OrderItem) (now : String) : Order :=
  { id := nextOrderId orders, waiterId := draftWaiter, time := now,
    items := selected, status := .pending, collector := "" }

/-- Specification-side maximum: the maximum numeric suffix among ids
of the form `order<digits>`, taken as 0 when no id matches. -/
def maxOrderSuffix (orders : List Order) : Nat :=
  (orders.filterMap (fun o => parseOrderSuffix o.id)).foldl Nat.max 0

/-- The source's reduce with an inline regex match equals the maximum
fold over the parsed suffixes. -/
theorem foldl_match_eq_filterMap (l : List Order) (a : Nat) :
    l.foldl
      (fun mx o =>
        match parseOrderSuffix o.id with
        | none => mx
        | some n => Nat.max mx n)
      a
      = (l.filterMap (fun o => parseOrderSuffix o.id)).foldl Nat.max a := by
  induction l generalizing a with
  | nil => rfl
  | cons o os ih =>
    cases h : parseOrderSuffix o.id <;> simp only [List.foldl_cons, List.filterMap_cons, h, ih]

/-- The initial accumulator is below a maximum fold. -/
theorem foldl_max_init_le (l : List Nat) (a : Nat) : a ≤ l.foldl Nat.max a := by
  induction l generalizing a with
  | nil => exact Nat.le_refl a
  | cons x xs ih => exact Nat.le_trans (Nat.le_max_left a x) (ih (Nat.max a x))

/-- Every member is below a maximum fold. -/
theorem foldl_max_mem_le (l : List Nat) (a : Nat) :
    ∀ v ∈ l, v ≤ l.foldl Nat.max a := by
  induction l generalizing a with
  | nil => intro v hv; cases hv
  | cons x xs ih =>
    intro v hv
    rcases List.mem_cons.mp hv with rfl | hv2
    · exact Nat.le_trans (Nat.le_max_right a v) (foldl_max_init_le xs (Nat.max a v))
    · exact ih (Nat.max a x) v hv2

/-- A maximum fold is either the initial accumulator or a member. -/
theorem foldl_max_eq_init_or_mem (l : List Nat) (a : Nat) :
    l.foldl Nat.max a = a ∨ l.foldl Nat.max a ∈ l := by
  induction l generalizing a with
  | nil => exact Or.inl rfl
  | cons x xs ih =>
    rcases ih (Nat.max a x) with h | h
    · rcases Nat.le_total a x with hax | hxa
      · right
        rw [List.foldl_cons, h]
        have hx : Nat.max a x = x := Nat.max_eq_right hax
        rw [hx]
        exact List.mem_cons_self x xs
      · left
        rw [List.foldl_cons, h]
        exact Nat.max_eq_left hxa
    · right
      exact List.mem_cons_of_mem x h

/-- C10: a newly created order's id is `order` followed by one plus
the maximum numeric suffix among existing ids of the form
`order<digits>` — the maximum being an upper bound of all parsed
suffixes and itself 0 or one of them — zero-padded to three digits;
on an empty collection the first id is `order001`. -/
theorem nextOrderId_spec (orders : List Order) (draftWaiter : String)
    (selected : List OrderItem) (now : String) :
    ((handleCreateOrder orders draftWaiter selected now).id = nextOrderId orders) ∧
    (nextOrderId orders = "order" ++ padStartZeros 3 (natToString (maxOrderSuffix orders + 1))) ∧
    (∀ v ∈ orders.filterMap (fun o => parseOrderSuffix o.id), v ≤ maxOrderSuffix orders) ∧
    (maxOrderSuffix orders = 0 ∨
      maxOrderSuffix orders ∈ orders.filterMap (fun o => parseOrderSuffix o.id)) ∧
    nextOrderId [] = "order001" := by
  refine ⟨rfl, ?_, ?_, ?_, ?_⟩
  · unfold nextOrderId maxOrderSuffix
    rw [foldl_match_eq_filterMap]
  · exact foldl_max_mem_le _ 0
  · exact foldl_max_eq_init_or_mem _ 0
  · show "order" ++ padStartZeros 3 (natToString 1) = "order001"
    simp [natToString, natToChars, padStartZeros, digitChar]

/-- Witness for C10 at a concrete collection: with existing ids
`order007` and a non-matching id, the allocated id is `order008`. -/
theorem nextOrderId_spec_witness :
    (nextOrderId
        [{ id := "order007", waiterId := "w1", time := "t", items := [],
           status := .pending, collector := "" },
         { id := "foo", waiterId := "w1", time := "t", items := [],
           status := .pending, collector := "" }]
      = "order" ++ padStartZeros 3 (natToString
          (maxOrderSuffix
            [{ id := "order007", waiterId := "w1", time := "t", items := [],
               status := .pending, collector := "" },
             { id := "foo", waiterId := "w1", time := "t", items := [],
               status := .pending, collector := "" }] + 1))) ∧
    (nextOrderId
        [{ id := "order007", waiterId := "w1", time := "t", items := [],
           status := .pending, collector := "" },
         { id := "foo", waiterId := "w1", time := "t", items := [],
           status := .pending, collector := "" }]
      = "order008") := by
  refine ⟨(nextOrderId_spec _ "" [] "").2.1, ?_⟩
  show "order" ++ padStartZeros 3 (natToString (Nat.max 0 7 + 1)) = "order008"
  simp [natToString, natToChars, padStartZeros, digitChar]

/-! ### ISO week bucketing (C7)

The JS `Date` collaborator is modelled by proleptic-Gregorian calendar
arithmetic on day numbers (day 0 = 1970-01-01, a Thursday), using the
standard era-based civil-date conversion.  Millisecond differences of
UTC midnights divided by 86400000 are exact day differences, so the
model tracks days directly. -/

/-- `Date.UTC(y, m-1, d) / 86400000`: the day number of a civil date
(era-based conversion, valid for all dates). -/
def daysFromCivil (y : Int) (m d : Nat) : Int :=
  let y2 : Int := if m ≤ 2 then y - 1 else y
  let era : Int := y2 / 400
  let yoe : Int := y2 - era * 400
  let mp : Nat := (m + 9) % 12
  let doy : Nat := (153 * mp + 2) / 5 + d - 1
  let doe : Int := yoe * 365 + yoe / 4 - yoe / 100 + (doy : Int)
  era * 146097 + doe - 719468

/-- Day of era: the day number shifted into its 400-year era. -/
def civilDoe (z : Int) : Nat := (z + 719468 - (z + 719468) / 146097 * 146097).toNat

/-- Year of era of a day-of-era. -/
def civilYoe (doe : Nat) : Nat := (doe - doe / 1460 + doe / 36524 - doe / 146096) / 365

/-- Day of (March-based) year of a day-of-era. -/
def civilDoy (doe : Nat) : Nat :=
  doe - (365 * civilYoe doe + civilYoe doe / 4 - civilYoe doe / 100)

/-- March-based month index of a day-of-era. -/
def civilMp (doe : Nat) : Nat := (5 * civilDoy doe + 2) / 153

/-- The civil date (year, month, day) of a day number — the model of
`getUTCFullYear`/`getUTCMonth`/`getUTCDate`. -/
def civilFromDays (z : Int) : Int × Nat × Nat :=
  let doe := civilDoe z
  let mp := civilMp doe
  let m := if mp < 10 then mp + 3 else mp - 9
  let d := civilDoy doe - (153 * mp + 2) / 5 + 1
  let y : Int := (civilYoe doe : Int) + (z + 719468) / 146097 * 400
  (if m ≤ 2 then y + 1 else y, m, d)

/-- `Math.ceil(a / b)` for an exact integer quotient context, `b > 0`:
Euclidean division rounds towards minus infinity for positive
divisors, so the ceiling is `-((-a) / b)`. -/
def jsCeilDiv (a b : Int) : Int := -((-a) / b)

/-- `getWeekId(d)`: normalise to the UTC date, compute the ISO day
number (`getUTCDay() || 7`), shift to the week's Thursday, and count
weeks from that year's January 1 with `Math.ceil`.  Day 0 is a
Thursday, so `getUTCDay()` of day `n` is `(n + 4) % 7`. -/
def getWeekId (y : Int) (m d : Nat) : String :=
  let days := daysFromCivil y m d
  let dayNum : Int := if (days + 4) % 7 = 0 then 7 else (days + 4) % 7
  let thursday := days + 4 - dayNum
  let isoYear := (civilFromDays thursday).1
  let yearStart := daysFromCivil isoYear 1 1
  let weekNo := jsCeilDiv (thursday - yearStart + 1) 7
  toString isoYear ++ "-W" ++ toString weekNo

/-- The ISO week identifier as the specification words it: shift the
date to the Thursday of its Monday-starting week (`(days + 3) % 7` is
the Monday-based weekday index), then count weeks (1-based, 7-day
blocks) from that Thursday-adjusted year's January 1. -/
def isoWeekIdSpec (y : Int) (m d : Nat) : String :=
  let days := daysFromCivil y m d
  let mondayIndex := (days + 3) % 7
  let thursday := days - mondayIndex + 3
  let isoYear := (civilFromDays thursday).1
  let yearStart := daysFromCivil isoYear 1 1
  let weekNo : Int := ((thursday - yearStart).toNat : Int) / 7 + 1
  toString isoYear ++ "-W" ++ toString weekNo

/-- The code's `+ 4 - (getUTCDay() || 7)` shift equals the shift to
the Thursday of the Monday-starting week. -/
theorem thursday_shift (days : Int) :
    days + 4 - (if (days + 4) % 7 = 0 then 7 else (days + 4) % 7)
      = days - (days + 3) % 7 + 3 := by
  split_ifs with h <;> omega

/-- January 1 of the civil year of a day number is not after it. -/
theorem jan1_le (z : Int) : daysFromCivil (civilFromDays z).1 1 1 ≤ z := by
  have hdoe1 : ((civilDoe z : Nat) : Int) = z + 719468 - (z + 719468) / 146097 * 146097 := by
    unfold civilDoe; omega
  have hdoe2 : civilDoe z ≤ 146096 := by
    unfold civilDoe; omega
  have hyoe : civilYoe (civilDoe z) ≤ 399 := by
    unfold civilYoe; omega
  have hyoeD : 365 * civilYoe (civilDoe z)
      ≤ civilDoe z - civilDoe z / 1460 + civilDoe z / 36524 - civilDoe z / 146096 := by
    unfold civilYoe; omega
  have hmp : 10 ≤ civilMp (civilDoe z) →
      306 ≤ civilDoe z - (365 * civilYoe (civilDoe z)
        + civilYoe (civilDoe z) / 4 - civilYoe (civilDoe z) / 100) := by
    unfold civilMp civilDoy; omega
  simp only [daysFromCivil, civilFromDays]
  split_ifs <;> (try have h306 := hmp (by omega)) <;> try omega
  all_goals
    have hB : ((civilYoe (civilDoe z) : Int) + (z + 719468) / 146097 * 400 + 1 - 1 -
        ((civilYoe (civilDoe z) : Int) + (z + 719468) / 146097 * 400 + 1 - 1) / 400 * 400)
        = (civilYoe (civilDoe z) : Int) := by omega
  all_goals rw [hB]
  all_goals omega

/-- `Math.ceil((n + 1) / 7)` equals `n / 7 + 1` for nonnegative `n`. -/
theorem jsCeilDiv_seven (n : Int) (h : 0 ≤ n) :
    jsCeilDiv (n + 1) 7 = (n.toNat : Int) / 7 + 1 := by
  unfold jsCeilDiv
  omega

/-- C7: for every date, the weekly bucket key computed by `getWeekId`
is the ISO-8601 week identifier `YYYY-W<n>` obtained by shifting the
date to the Thursday of its Monday-starting week and counting 1-based
7-day weeks from that Thursday-adjusted year's January 1; in
particular the week id of 2024-12-31 (a Tuesday) is `2025-W1`. -/
theorem getWeekId_matches_iso :
    (∀ (y : Int) (m d : Nat), getWeekId y m d = isoWeekIdSpec y m d) ∧
    getWeekId 2024 12 31 = "2025-W1" := by
  constructor
  · intro y m d
    simp only [getWeekId, isoWeekIdSpec]
    rw [thursday_shift]
    have h0 : 0 ≤ (daysFromCivil y m d - (daysFromCivil y m d + 3) % 7 + 3)
        - daysFromCivil
            (civilFromDays (daysFromCivil y m d - (daysFromCivil y m d + 3) % 7 + 3)).1 1 1 := by
      have := jan1_le (daysFromCivil y m d - (daysFromCivil y m d + 3) % 7 + 3)
      omega
    rw [jsCeilDiv_seven _ h0]
  · decide

/-! ### Report row ordering (C9)

JS string comparison (`a > b` in the sort comparator) compares code
units left to right, shorter prefix first; `lexLtChars` models it on
the character lists, comparing `Char.toNat` code points (labels are
ASCII). -/

/-- Model of JS string `<` on character lists. -/
def lexLtChars : List Char → List Char → Bool
  | _, [] => false
  | [], _ :: _ => true
  | a :: as, b :: bs =>
    if a.toNat < b.toNat then true
    else if b.toNat < a.toNat then false
    else lexLtChars as bs

/-- Model of JS string `<` on strings. -/
def jsStrLt (a b : String) : Bool := lexLtChars a.data b.data

/-- `Array.from(buckets.entries()).sort(([a], [b]) => (a > b ? -1 : 1))`:
a sort whose comparator puts `a` before `b` exactly when `a`'s label
is strictly greater, i.e. sorting by the order `¬(label a < label b)`. -/
def sortReportRows (rows : List (String × ReportStats)) : List (String × ReportStats) :=
  rows.mergeSort (fun a b => !(jsStrLt a.1 b.1))

/-- A number rendered as exactly two zero-padded decimal digits. -/
def pad2 (n : Nat) : List Char := [digitChar (n / 10), digitChar (n % 10)]

/-- A number rendered as exactly four zero-padded decimal digits. -/
def pad4 (n : Nat) : List Char :=
  [digitChar (n / 1000), digitChar (n / 100 % 10), digitChar (n / 10 % 10), digitChar (n % 10)]

/-- The daily bucket label `date.toISOString().slice(0, 10)`:
zero-padded fixed-width `YYYY-MM-DD`. -/
def dailyLabel (y m d : Nat) : String :=
  ⟨pad4 y ++ '-' :: (pad2 m ++ '-' :: pad2 d)⟩

/-- The monthly bucket label
`getFullYear() + '-' + String(getMonth() + 1).padStart(2, '0')`. -/
def monthlyLabel (y m : Nat) : String :=
  ⟨natToChars y ++ '-' :: (padStartZeros 2 (natToString m)).data⟩

/-- The yearly bucket label `String(getFullYear())`. -/
def yearlyLabel (y : Nat) : String := ⟨natToChars y⟩

/-- Characters with equal code points are equal. -/
theorem char_eq_of_toNat_eq {a b : Char} (h : a.toNat = b.toNat) : a = b := by
  apply Char.eq_of_val_eq
  exact UInt32.ext h

/-- `lexLtChars` is irreflexive. -/
theorem lexLtChars_irrefl (as : List Char) : lexLtChars as as = false := by
  induction as with
  | nil => rfl
  | cons a as ih => simp [lexLtChars, ih]

/-- `lexLtChars` is transitive. -/
theorem lexLtChars_trans {as bs cs : List Char} :
    lexLtChars as bs = true → lexLtChars bs cs = true → lexLtChars as cs = true := by
  induction as generalizing bs cs with
  | nil =>
    intro h1 h2
    cases bs with
    | nil => exact absurd h1 (by simp [lexLtChars])
    | cons b bs' =>
      cases cs with
      | nil => simp [lexLtChars] at h2
      | cons c cs' => simp [lexLtChars]
  | cons a as' ih =>
    intro h1 h2
    cases bs with
    | nil => simp [lexLtChars] at h1
    | cons b bs' =>
      cases cs with
      | nil => simp [lexLtChars] at h2
      | cons c cs' =>
        simp only [lexLtChars] at h1 h2 ⊢
        split_ifs at h1 h2 ⊢ <;>
          first
          | rfl
          | omega
          | exact ih h1 h2
          | exact Bool.noConfusion h1
          | exact Bool.noConfusion h2

/-- Lists unrelated by `lexLtChars` in both directions are equal. -/
theorem lexLtChars_connex {as bs : List Char} :
    lexLtChars as bs = false → lexLtChars bs as = false → as = bs := by
  induction as generalizing bs with
  | nil =>
    intro h1 _
    cases bs with
    | nil => rfl
    | cons b bs' => simp [lexLtChars] at h1
  | cons a as' ih =>
    intro h1 h2
    cases bs with
    | nil => simp [lexLtChars] at h2
    | cons b bs' =>
      simp only [lexLtChars] at h1 h2
      split_ifs at h1 h2 <;>
        first
        | exact Bool.noConfusion h1
        | exact Bool.noConfusion h2
        | (rename_i hab hba
           exact congrArg₂ List.cons (char_eq_of_toNat_eq (by omega)) (ih h1 h2))

/-- Code point of a digit character. -/
theorem digitChar_toNat {n : Nat} (h : n < 10) : (digitChar n).toNat = 48 + n := by
  interval_cases n <;> rfl

/-- Digit characters are equal exactly when the digits are. -/
theorem digitChar_inj {a b : Nat} (ha : a < 10) (hb : b < 10) :
    digitChar a = digitChar b ↔ a = b := by
  constructor
  · intro h
    have h2 := congrArg Char.toNat h
    rw [digitChar_toNat ha, digitChar_toNat hb] at h2
    omega
  · intro h
    rw [h]

/-- Two-digit zero-padded comparison is numeric comparison. -/
theorem pad2_lt {m1 m2 : Nat} (h1 : m1 < 100) (h2 : m2 < 100) :
    (lexLtChars (pad2 m1) (pad2 m2) = true) ↔ m1 < m2 := by
  have d1 : m1 / 10 < 10 := by omega
  have d2 : m2 / 10 < 10 := by omega
  have e1 : m1 % 10 < 10 := by omega
  have e2 : m2 % 10 < 10 := by omega
  simp only [pad2, lexLtChars, digitChar_toNat d1, digitChar_toNat d2,
    digitChar_toNat e1, digitChar_toNat e2]
  split_ifs <;> simp <;> omega

/-- Two-digit zero-padded renderings are equal exactly when the
numbers are. -/
theorem pad2_eq {m1 m2 : Nat} (h1 : m1 < 100) (h2 : m2 < 100) :
    pad2 m1 = pad2 m2 ↔ m1 = m2 := by
  have d1 : m1 / 10 < 10 := by omega
  have d2 : m2 / 10 < 10 := by omega
  have e1 : m1 % 10 < 10 := by omega
  have e2 : m2 % 10 < 10 := by omega
  simp only [pad2, List.cons.injEq, and_true, digitChar_inj d1 d2, digitChar_inj e1 e2]
  omega

/-- Four-digit zero-padded comparison is numeric comparison. -/
theorem pad4_lt {y1 y2 : Nat} (h1 : y1 < 10000) (h2 : y2 < 10000) :
    (lexLtChars (pad4 y1) (pad4 y2) = true) ↔ y1 < y2 := by
  have a1 : y1 / 1000 < 10 := by omega
  have a2 : y2 / 1000 < 10 := by omega
  have b1 : y1 / 100 % 10 < 10 := by omega
  have b2 : y2 / 100 % 10 < 10 := by omega
  have c1 : y1 / 10 % 10 < 10 := by omega
  have c2 : y2 / 10 % 10 < 10 := by omega
  have e1 : y1 % 10 < 10 := by omega
  have e2 : y2 % 10 < 10 := by omega
  simp only [pad4, lexLtChars, digitChar_toNat a1, digitChar_toNat a2, digitChar_toNat b1,
    digitChar_toNat b2, digitChar_toNat c1, digitChar_toNat c2, digitChar_toNat e1,
    digitChar_toNat e2]
  split_ifs <;> simp <;> omega

/-- Four-digit zero-padded renderings are equal exactly when the
numbers are. -/
theorem pad4_eq {y1 y2 : Nat} (h1 : y1 < 10000) (h2 : y2 < 10000) :
    pad4 y1 = pad4 y2 ↔ y1 = y2 := by
  have a1 : y1 / 1000 < 10 := by omega
  have a2 : y2 / 1000 < 10 := by omega
  have b1 : y1 / 100 % 10 < 10 := by omega
  have b2 : y2 / 100 % 10 < 10 := by omega
  have c1 : y1 / 10 % 10 < 10 := by omega
  have c2 : y2 / 10 % 10 < 10 := by omega
  have e1 : y1 % 10 < 10 := by omega
  have e2 : y2 % 10 < 10 := by omega
  simp only [pad4, List.cons.injEq, and_true, digitChar_inj a1 a2, digitChar_inj b1 b2,
    digitChar_inj c1 c2, digitChar_inj e1 e2]
  omega

/-- Splitting a lexicographic comparison at equal-length prefixes. -/
theorem lexLtChars_append {as bs : List Char} (h : as.length = bs.length)
    (cs ds : List Char) :
    lexLtChars (as ++ cs) (bs ++ ds)
      = (lexLtChars as bs || (as == bs && lexLtChars cs ds)) := by
  induction as generalizing bs with
  | nil =>
    cases bs with
    | nil => simp [lexLtChars]
    | cons b bs' => simp at h
  | cons a as' ih =>
    cases bs with
    | nil => simp at h
    | cons b bs' =>
      simp only [List.cons_append]
      by_cases hab : a.toNat < b.toNat
      · have hne : a ≠ b := fun e => by rw [e] at hab; omega
        simp [lexLtChars, hab, hne]
      · by_cases hba : b.toNat < a.toNat
        · have hne : a ≠ b := fun e => by rw [e] at hba; omega
          simp [lexLtChars, hab, hba, hne]
        · have heq : a = b := char_eq_of_toNat_eq (by omega)
          subst heq
          simp only [lexLtChars, hab, if_neg, if_false]
          rw [ih (by simpa using h)]
          simp

/-- A year in [1000, 9999] renders as its four digits. -/
theorem natToChars_four {y : Nat} (h1 : 1000 ≤ y) (h2 : y ≤ 9999) :
    natToChars y = pad4 y := by
  have n1 : ¬ y < 10 := by omega
  have n2 : ¬ y / 10 < 10 := by omega
  have n3 : ¬ y / 10 / 10 < 10 := by omega
  have n4 : y / 10 / 10 / 10 < 10 := by omega
  rw [natToChars, dif_neg n1, natToChars, dif_neg n2, natToChars, dif_neg n3,
    natToChars, dif_pos n4]
  have e1 : y / 10 / 10 / 10 = y / 1000 := by omega
  have e2 : y / 10 / 10 % 10 = y / 100 % 10 := by omega
  rw [e1, e2]
  simp [pad4]

/-- `String(m).padStart(2, '0')` renders a number below 100 as its two
zero-padded digits. -/
theorem padStart2_natToString {m : Nat} (h : m < 100) :
    (padStartZeros 2 (natToString m)).data = pad2 m := by
  by_cases h10 : m < 10
  · rw [natToString, natToChars, dif_pos h10]
    have e1 : m / 10 = 0 := by omega
    have e2 : m % 10 = m := by omega
    simp [padStartZeros, pad2, e1, e2, digitChar]
  · rw [natToString, natToChars, dif_neg h10, natToChars, dif_pos (by omega : m / 10 < 10)]
    simp [padStartZeros, pad2]

/-- Daily labels compare exactly as their dates do. -/
theorem dailyLabel_lt_iff {y1 m1 d1 y2 m2 d2 : Nat}
    (hy1 : y1 < 10000) (hy2 : y2 < 10000) (hm1 : m1 < 100) (hm2 : m2 < 100)
    (hd1 : d1 < 100) (hd2 : d2 < 100) :
    (jsStrLt (dailyLabel y1 m1 d1) (dailyLabel y2 m2 d2) = true) ↔
      (y1 < y2 ∨ (y1 = y2 ∧ (m1 < m2 ∨ (m1 = m2 ∧ d1 < d2)))) := by
  show (lexLtChars (pad4 y1 ++ '-' :: (pad2 m1 ++ '-' :: pad2 d1))
      (pad4 y2 ++ '-' :: (pad2 m2 ++ '-' :: pad2 d2)) = true) ↔ _
  rw [lexLtChars_append (by simp [pad4]) _ _]
  have hsep : lexLtChars ('-' :: (pad2 m1 ++ '-' :: pad2 d1))
      ('-' :: (pad2 m2 ++ '-' :: pad2 d2))
      = lexLtChars (pad2 m1 ++ '-' :: pad2 d1) (pad2 m2 ++ '-' :: pad2 d2) := by
    simp [lexLtChars]
  rw [hsep, lexLtChars_append (by simp [pad2]) _ _]
  have hsep2 : lexLtChars ('-' :: pad2 d1) ('-' :: pad2 d2)
      = lexLtChars (pad2 d1) (pad2 d2) := by
    simp [lexLtChars]
  rw [hsep2]
  simp only [Bool.or_eq_true, Bool.and_eq_true, beq_iff_eq]
  rw [pad4_lt hy1 hy2, pad4_eq hy1 hy2, pad2_lt hm1 hm2, pad2_eq hm1 hm2, pad2_lt hd1 hd2]

/-- Monthly labels compare exactly as their periods do. -/
theorem monthlyLabel_lt_iff {y1 m1 y2 m2 : Nat}
    (hy1 : 1000 ≤ y1) (hy1b : y1 ≤ 9999) (hy2 : 1000 ≤ y2) (hy2b : y2 ≤ 9999)
    (hm1 : m1 < 100) (hm2 : m2 < 100) :
    (jsStrLt (monthlyLabel y1 m1) (monthlyLabel y2 m2) = true) ↔
      (y1 < y2 ∨ (y1 = y2 ∧ m1 < m2)) := by
  show (lexLtChars (natToChars y1 ++ '-' :: (padStartZeros 2 (natToString m1)).data)
      (natToChars y2 ++ '-' :: (padStartZeros 2 (natToString m2)).data) = true) ↔ _
  rw [natToChars_four hy1 hy1b, natToChars_four hy2 hy2b,
    padStart2_natToString hm1, padStart2_natToString hm2,
    lexLtChars_append (by simp [pad4]) _ _]
  have hsep : lexLtChars ('-' :: pad2 m1) ('-' :: pad2 m2)
      = lexLtChars (pad2 m1) (pad2 m2) := by
    simp [lexLtChars]
  rw [hsep]
  simp only [Bool.or_eq_true, Bool.and_eq_true, beq_iff_eq]
  rw [pad4_lt (by omega) (by omega), pad4_eq (by omega) (by omega), pad2_lt hm1 hm2]

/-- Yearly labels compare exactly as the years do. -/
theorem yearlyLabel_lt_iff {y1 y2 : Nat}
    (hy1 : 1000 ≤ y1) (hy1b : y1 ≤ 9999) (hy2 : 1000 ≤ y2) (hy2b : y2 ≤ 9999) :
    (jsStrLt (yearlyLabel y1) (yearlyLabel y2) = true) ↔ y1 < y2 := by
  show (lexLtChars (natToChars y1) (natToChars y2) = true) ↔ _
  rw [natToChars_four hy1 hy1b, natToChars_four hy2 hy2b]
  exact pad4_lt (by omega) (by omega)

/-- `jsStrLt` is irreflexive. -/
theorem jsStrLt_irrefl (a : String) : jsStrLt a a = false :=
  lexLtChars_irrefl a.data

/-- `jsStrLt` is transitive. -/
theorem jsStrLt_trans {a b c : String} :
    jsStrLt a b = true → jsStrLt b c = true → jsStrLt a c = true :=
  lexLtChars_trans

/-- Strings unrelated by `jsStrLt` in both directions are equal. -/
theorem jsStrLt_connex {a b : String} (h1 : jsStrLt a b = false)
    (h2 : jsStrLt b a = false) : a = b := by
  cases a with
  | mk da =>
    cases b with
    | mk db =>
      have h3 := @lexLtChars_connex da db h1 h2
      rw [h3]

/-- The sort comparator's order is transitive. -/
theorem rowLe_trans (a b c : String × ReportStats)
    (hab : (!(jsStrLt a.1 b.1)) = true) (hbc : (!(jsStrLt b.1 c.1)) = true) :
    (!(jsStrLt a.1 c.1)) = true := by
  simp only [Bool.not_eq_true'] at *
  by_cases hba : jsStrLt b.1 a.1 = true
  · by_contra hac
    simp only [Bool.not_eq_false] at hac
    exact absurd (jsStrLt_trans hba hac) (by rw [hbc]; simp)
  · have heq : b.1 = a.1 := jsStrLt_connex (by simpa using hba) hab
    rw [← heq]
    exact hbc

/-- The sort comparator's order is total. -/
theorem rowLe_total (a b : String × ReportStats) :
    ((!(jsStrLt a.1 b.1)) || (!(jsStrLt b.1 a.1))) = true := by
  by_cases h : jsStrLt a.1 b.1 = true
  · have h2 : jsStrLt b.1 a.1 = false := by
      by_contra hba
      simp only [Bool.not_eq_false] at hba
      exact absurd (jsStrLt_trans h hba) (by rw [jsStrLt_irrefl]; simp)
    simp [h2]
  · simp only [Bool.not_eq_true] at h
    simp [h]

/-- C9: the aggregator's rows come out sorted by label in descending
lexicographic string order (each earlier row's label is not less than
any later one's; the sort permutes the bucket list), and on the
zero-padded fixed-width daily `YYYY-MM-DD`, monthly `YYYY-MM` and
yearly `YYYY` label formats that lexicographic order coincides with
chronological order, so descending labels mean most recent period
first. -/
theorem reportRows_sorted_desc :
    (∀ rows : List (String × ReportStats),
      ((sortReportRows rows).Pairwise (fun a b => jsStrLt a.1 b.1 = false)) ∧
      (sortReportRows rows).Perm rows) ∧
    (∀ y1 m1 d1 y2 m2 d2 : Nat, y1 < 10000 → y2 < 10000 → m1 < 100 → m2 < 100 →
      d1 < 100 → d2 < 100 →
      ((jsStrLt (dailyLabel y1 m1 d1) (dailyLabel y2 m2 d2) = true) ↔
        (y1 < y2 ∨ (y1 = y2 ∧ (m1 < m2 ∨ (m1 = m2 ∧ d1 < d2)))))) ∧
    (∀ y1 m1 y2 m2 : Nat, 1000 ≤ y1 → y1 ≤ 9999 → 1000 ≤ y2 → y2 ≤ 9999 →
      m1 < 100 → m2 < 100 →
      ((jsStrLt (monthlyLabel y1 m1) (monthlyLabel y2 m2) = true) ↔
        (y1 < y2 ∨ (y1 = y2 ∧ m1 < m2)))) ∧
    (∀ y1 y2 : Nat, 1000 ≤ y1 → y1 ≤ 9999 → 1000 ≤ y2 → y2 ≤ 9999 →
      ((jsStrLt (yearlyLabel y1) (yearlyLabel y2) = true) ↔ y1 < y2)) := by
  refine ⟨?_, ?_, ?_, ?_⟩
  · intro rows
    constructor
    · have h := List.sorted_mergeSort rowLe_trans rowLe_total rows
      exact h.imp (fun hab => by simpa using hab)
    · exact List.mergeSort_perm rows _
  · intro y1 m1 d1 y2 m2 d2 hy1 hy2 hm1 hm2 hd1 hd2
    exact dailyLabel_lt_iff hy1 hy2 hm1 hm2 hd1 hd2
  · intro y1 m1 y2 m2 hy1 hy1b hy2 hy2b hm1 hm2
    exact monthlyLabel_lt_iff hy1 hy1b hy2 hy2b hm1 hm2
  · intro y1 y2 hy1 hy1b hy2 hy2b
    exact yearlyLabel_lt_iff hy1 hy1b hy2 hy2b

/-- Witness for C9 at concrete labels: `2024-01-05` sorts before
`2024-01-06`, `2024` is not less than `2023`, `2024-01` is less than
`2024-02`. -/
theorem reportRows_sorted_desc_witness :
    (jsStrLt (dailyLabel 2024 1 5) (dailyLabel 2024 1 6) = true) ∧
    (jsStrLt (yearlyLabel 2024) (yearlyLabel 2023) = false) ∧
    (jsStrLt (monthlyLabel 2024 1) (monthlyLabel 2024 2) = true) := by
  have h := reportRows_sorted_desc
  refine ⟨?_, ?_, ?_⟩
  · exact (h.2.1 2024 1 5 2024 1 6 (by omega) (by omega) (by omega) (by omega)
      (by omega) (by omega)).mpr (by omega)
  · have hiff := h.2.2.2 2024 2023 (by omega) (by omega) (by omega) (by omega)
    cases hb : jsStrLt (yearlyLabel 2024) (yearlyLabel 2023) with
    | false => rfl
    | true => exact absurd (hiff.mp hb) (by omega)
  · exact (h.2.2.1 2024 1 2024 2 (by omega) (by omega) (by omega) (by omega)
      (by omega) (by omega)).mpr (by omega)
